import Mathlib

/-!
Seastore node extent manager

A shallow embedding of
`src/crimson/os/seastore/onode_manager/staged-fltree/node_extent_manager/seastore.h`
(`SeastoreSuper`, `SeastoreNodeExtent`, `SeastoreNodeExtentManager`).

Conventions of the embedding:

* The backing `TransactionManager` is an external collaborator.  It is a
  record of four functions over an arbitrary store state `σ` with an arbitrary
  error type `ε`; every theorem quantifies over all such records.
* Every call that goes through the store is appended to a call log kept next
  to the store state, so that "how often and with which arguments was the
  store invoked" is a statement about data.
* A `tm_future<T>` is run to completion: its result is an `Outcome`, which is
  a value, an error of the errorator, or a failed `assert`.  `assert` is
  modelled with assertions compiled in (`NDEBUG` undefined).
* Log statements (`TRACET`, `DEBUGT`) have no effect on results and are
  omitted.
-/

namespace crimson.os.seastore.onode

/-! ## Basic types -/

/-- Logical address (`laddr_t`, an unsigned machine integer in the source; no
arithmetic is performed on it here). -/
abbrev laddr_t := Nat

/-- Extent length in bytes (`extent_len_t`). -/
abbrev extent_len_t := Nat

/-- One byte of a buffer. -/
abbrev Byte := Fin 256

/-- Handle naming a `Transaction&`. -/
abbrev Transaction := Nat

/-- Handle naming a `RootNodeTracker&`. -/
abbrev RootNodeTracker := Nat

/-- The extent type tags referred to by the source. -/
inductive extent_types_t where
  | ONODE_BLOCK_STAGED
  deriving DecidableEq, Repr

/-- Result of running a `tm_future<α>` to completion. -/
inductive Outcome (ε α : Type) where
  | ok (a : α)
  | error (e : ε)
  | assert_failed
  deriving DecidableEq, Repr

/-- Continuation attached with `safe_then`: runs only on a value; an error or
a failed assertion passes through untouched. -/
def Outcome.safe_then {ε α β : Type} (r : Outcome ε α) (k : α → Outcome ε β) :
    Outcome ε β :=
  match r with
  | .ok a => k a
  | .error e => .error e
  | .assert_failed => .assert_failed

/-! ## Delta recorder -/

/-- Modelled from the spec: one change record of a `DeltaRecorder`
(`node_delta_recorder.h` is absent): "offset/range and new value". -/
structure DeltaRecord where
  offset : Nat
  data : List Byte
  deriving DecidableEq, Repr

/-- Modelled from the spec: `DeltaRecorder` (`node_delta_recorder.h` is
absent): "an ordered sequence of change records scoped to one extent, plus the
extent's declared content-type tag". -/
structure DeltaRecorder where
  node_type : extent_types_t
  records : List DeltaRecord
  deriving DecidableEq, Repr

/-- Modelled from the spec: the delta codec of the absent
`node_delta_recorder.h`; little-endian encoding of a 32-bit unsigned integer. -/
def encode_u32 (n : Nat) : List Byte :=
  [Fin.ofNat (n % 256), Fin.ofNat (n / 256 % 256),
   Fin.ofNat (n / 65536 % 256), Fin.ofNat (n / 16777216 % 256)]

/-- Modelled from the spec: the delta codec of the absent
`node_delta_recorder.h`; little-endian decoding of a 32-bit unsigned integer. -/
def decode_u32 (b0 b1 b2 b3 : Byte) : Nat :=
  b0.val + 256 * b1.val + 65536 * b2.val + 16777216 * b3.val

/-- Modelled from the spec: serialised form of one change record: offset,
length of the new value, then the new value. -/
def DeltaRecord.encode (r : DeltaRecord) : List Byte :=
  encode_u32 r.offset ++ encode_u32 r.data.length ++ r.data

/-- Modelled from the spec: `DeltaRecorder::get_delta`: "serialize its
accumulated deltas into a single opaque byte sequence", in recorded order. -/
def DeltaRecorder.get_delta (r : DeltaRecorder) : List Byte :=
  (r.records.map DeltaRecord.encode).flatten

/-- Modelled from the spec: decoder of a serialised delta sequence;
`none` when the bytes are not a sequence of well-formed records (a replay
failure).  `fuel` bounds the number of records read. -/
def decode_delta : Nat → List Byte → Option (List DeltaRecord)
  | _, [] => some []
  | 0, _ :: _ => none
  | fuel + 1, o0 :: o1 :: o2 :: o3 :: l0 :: l1 :: l2 :: l3 :: rest =>
    let len := decode_u32 l0 l1 l2 l3
    if rest.length < len then none
    else
      match decode_delta fuel (rest.drop len) with
      | none => none
      | some rs => some (⟨decode_u32 o0 o1 o2 o3, rest.take len⟩ :: rs)
  | _ + 1, _ => none

/-! ## Extents -/

/-- Modelled from the spec: the base class `NodeExtent` (declared in the
absent `node_extent_manager.h`): the logical address and the content buffer. -/
structure NodeExtent where
  laddr : laddr_t
  ptr : List Byte
  deriving DecidableEq, Repr

/-- Modelled from the spec: the base-class copy constructor
`NodeExtent(const NodeExtent&)` (absent): "its content buffer copied". -/
def NodeExtent.copy (other : NodeExtent) : NodeExtent :=
  { laddr := other.laddr, ptr := other.ptr }

/-- `class SeastoreNodeExtent final : public NodeExtent` with its private
member `DeltaRecorderURef recorder` (a possibly-null owning pointer). -/
structure SeastoreNodeExtent extends NodeExtent where
  recorder : Option DeltaRecorder
  deriving DecidableEq, Repr

namespace SeastoreNodeExtent

/-- Modelled from the spec: the inherited accessor `get_laddr()` (declared in
an absent header): the logical address of the extent. -/
def get_laddr (e : SeastoreNodeExtent) : laddr_t := e.laddr

/-- Modelled from the spec: the inherited accessor `get_length()` (declared in
an absent header): the length in bytes of the content buffer. -/
def get_length (e : SeastoreNodeExtent) : extent_len_t := e.ptr.length

/-- `SeastoreNodeExtent(ceph::bufferptr &&ptr) : NodeExtent(std::move(ptr)) {}`:
the recorder member is default-initialised (null). -/
def ofPtr (laddr : laddr_t) (ptr : List Byte) : SeastoreNodeExtent :=
  { laddr := laddr, ptr := ptr, recorder := none }

/-- `SeastoreNodeExtent(const SeastoreNodeExtent& other) : NodeExtent(other) {}`:
only the base class is copied; `recorder` is default-initialised (null). -/
def copy (other : SeastoreNodeExtent) : SeastoreNodeExtent :=
  { toNodeExtent := NodeExtent.copy other.toNodeExtent, recorder := none }

/-- `DeltaRecorder* get_recorder() const { return recorder.get(); }`. -/
def get_recorder (e : SeastoreNodeExtent) : Option DeltaRecorder := e.recorder

/-- `CachedExtentRef duplicate_for_write()`: returns
`new SeastoreNodeExtent(*this)`.  The method is not `const`; the first
component is the receiver after the call, the second the new extent. -/
def duplicate_for_write (e : SeastoreNodeExtent) :
    SeastoreNodeExtent × SeastoreNodeExtent :=
  (e, copy e)

/-- `extent_types_t get_type() const`. -/
def get_type (_e : SeastoreNodeExtent) : extent_types_t :=
  extent_types_t.ONODE_BLOCK_STAGED

/-- `ceph::bufferlist get_delta()`:
`assert(recorder); return recorder->get_delta();`.  The method returns a plain
value, so the error set of its outcome is empty. -/
def get_delta (e : SeastoreNodeExtent) : Outcome Empty (List Byte) :=
  match e.recorder with
  | none => .assert_failed
  | some r => .ok r.get_delta

/-- Modelled from the spec: an in-place overwrite of the byte range starting
at `off` by `data`; `none` when the range does not lie inside the buffer. -/
def write_bytes (buf : List Byte) (off : Nat) (data : List Byte) :
    Option (List Byte) :=
  if off + data.length ≤ buf.length then
    some (buf.take off ++ data ++ buf.drop (off + data.length))
  else none

/-- Modelled from the spec: `SeastoreNodeExtent::mutate` (declared in the
source, its body is absent): "produces a private, transaction-scoped writable
duplicate (copy-on-write); subsequent in-place edits are captured by
`recorder`". -/
def mutate (e : SeastoreNodeExtent) (recorder : DeltaRecorder) :
    SeastoreNodeExtent :=
  { (duplicate_for_write e).2 with recorder := some recorder }

/-- Modelled from the spec: one in-place edit of a dirty extent: the buffer is
overwritten and "one delta record describing the change" is appended to the
attached recorder.  `none` when the extent has no recorder or the range is
outside the buffer. -/
def edit (e : SeastoreNodeExtent) (r : DeltaRecord) : Option SeastoreNodeExtent :=
  match e.recorder, write_bytes e.ptr r.offset r.data with
  | some rec, some buf =>
    some { e with ptr := buf,
                  recorder := some { rec with records := rec.records ++ [r] } }
  | _, _ => none

/-- Modelled from the spec: a sequence of in-place edits of a dirty extent
(issued by the absent tree logic), applied in order. -/
def edits : SeastoreNodeExtent → List DeltaRecord → Option SeastoreNodeExtent
  | e, [] => some e
  | e, r :: rs =>
    match edit e r with
    | none => none
    | some e1 => edits e1 rs

/-- Modelled from the spec: replay of decoded change records over a buffer
(part of the absent body of `apply_delta`), "in recorded order". -/
def replay : List Byte → List DeltaRecord → Option (List Byte)
  | buf, [] => some buf
  | buf, r :: rs =>
    match write_bytes buf r.offset r.data with
    | none => none
    | some buf1 => replay buf1 rs

/-- Modelled from the spec: `SeastoreNodeExtent::apply_delta` (declared in the
source, its body is absent): decodes the delta bytes and applies the records
in recorded order to the extent's own content; `none` is a replay failure. -/
def apply_delta (e : SeastoreNodeExtent) (bl : List Byte) :
    Option SeastoreNodeExtent :=
  match decode_delta bl.length bl with
  | none => none
  | some rs =>
    match replay e.ptr rs with
    | none => none
    | some buf => some { e with ptr := buf }

end SeastoreNodeExtent

/-! ## The transactional store -/

/-- One invocation of the `TransactionManager`, with its arguments. -/
inductive StoreCall where
  | read_extent (t : Transaction) (addr : laddr_t) (len : extent_len_t)
  | alloc_extent (t : Transaction) (hint : laddr_t) (len : extent_len_t)
  | dec_ref (t : Transaction) (extent : SeastoreNodeExtent)
  | read_onode_root (t : Transaction)
  deriving DecidableEq, Repr

/-- The part of `TransactionManager` used by the manager.  `σ` is the state of
the store (all transactions included), `ε` the error set of `tm_future`. -/
structure TransactionManager (σ ε : Type) where
  read_extent : σ → Transaction → laddr_t → extent_len_t →
    Except ε SeastoreNodeExtent × σ
  alloc_extent : σ → Transaction → laddr_t → extent_len_t →
    Except ε SeastoreNodeExtent × σ
  dec_ref : σ → Transaction → SeastoreNodeExtent → Except ε Nat × σ
  read_onode_root : σ → Transaction → Except ε laddr_t × σ

/-- State of the store together with the log of calls made on it. -/
structure World (σ : Type) where
  st : σ
  calls : List StoreCall
  deriving Repr

/-- A store result seen as the outcome of its future. -/
def Outcome.ofExcept {ε α : Type} : Except ε α → Outcome ε α
  | .ok a => .ok a
  | .error e => .error e

/-- Performs one call on the store: logs it, takes the store's result and its
next state. -/
def World.call {σ ε α : Type} (w : World σ) (c : StoreCall)
    (f : σ → Except ε α × σ) : Outcome ε α × World σ :=
  (Outcome.ofExcept (f w.st).1, { st := (f w.st).2, calls := w.calls ++ [c] })

/-- The `assert(cond)` statement followed by the rest of the block. -/
def assert_then {ε α : Type} (cond : Bool) (rest : Outcome ε α) : Outcome ε α :=
  if cond then rest else .assert_failed

/-! ## Super -/

/-- `class SeastoreSuper final : public Super`. -/
structure SeastoreSuper (σ ε : Type) where
  t : Transaction
  tracker : RootNodeTracker
  root_addr : laddr_t
  tm : TransactionManager σ ε

/-- `laddr_t get_root_laddr() const { return root_addr; }`. -/
def SeastoreSuper.get_root_laddr {σ ε : Type} (s : SeastoreSuper σ ε) : laddr_t :=
  s.root_addr

/-! ## The manager -/

/-- `class SeastoreNodeExtentManager final : public NodeExtentManager`; the
structure constructor is
`SeastoreNodeExtentManager(TransactionManager& tm, laddr_t min)`. -/
structure SeastoreNodeExtentManager (σ ε : Type) where
  tm : TransactionManager σ ε
  addr_min : laddr_t

namespace SeastoreNodeExtentManager

variable {σ ε : Type}

/-- `bool is_read_isolated() const { return true; }`. -/
def is_read_isolated (_m : SeastoreNodeExtentManager σ ε) : Bool := true

/-- `tm_future<NodeExtentRef> read_extent(Transaction&, laddr_t, extent_len_t)`. -/
def read_extent (m : SeastoreNodeExtentManager σ ε) (w : World σ)
    (t : Transaction) (addr : laddr_t) (len : extent_len_t) :
    Outcome ε SeastoreNodeExtent × World σ :=
  let r := w.call (.read_extent t addr len) (fun s => m.tm.read_extent s t addr len)
  (r.1.safe_then fun e =>
      assert_then (e.get_laddr == addr) <|
      assert_then (e.get_length == len) <|
      .ok e,
   r.2)

/-- `tm_future<NodeExtentRef> alloc_extent(Transaction&, extent_len_t)`. -/
def alloc_extent (m : SeastoreNodeExtentManager σ ε) (w : World σ)
    (t : Transaction) (len : extent_len_t) :
    Outcome ε SeastoreNodeExtent × World σ :=
  let r := w.call (.alloc_extent t m.addr_min len)
    (fun s => m.tm.alloc_extent s t m.addr_min len)
  (r.1.safe_then fun extent =>
      assert_then (extent.get_length == len) <|
      .ok extent,
   r.2)

/-- `tm_future<> retire_extent(Transaction&, NodeExtentRef)`. -/
def retire_extent (m : SeastoreNodeExtentManager σ ε) (w : World σ)
    (t : Transaction) (extent : SeastoreNodeExtent) :
    Outcome ε Unit × World σ :=
  let r := w.call (.dec_ref t extent) (fun s => m.tm.dec_ref s t extent)
  (r.1.safe_then fun cnt =>
      assert_then (cnt == 0) <|
      .ok (),
   r.2)

/-- `tm_future<Super::URef> get_super(Transaction&, RootNodeTracker&)`. -/
def get_super (m : SeastoreNodeExtentManager σ ε) (w : World σ)
    (t : Transaction) (tracker : RootNodeTracker) :
    Outcome ε (SeastoreSuper σ ε) × World σ :=
  let r := w.call (.read_onode_root t) (fun s => m.tm.read_onode_root s t)
  (r.1.safe_then fun root_addr =>
      .ok { t := t, tracker := tracker, root_addr := root_addr, tm := m.tm },
   r.2)

end SeastoreNodeExtentManager

/-! ## Concrete stores

Two small stores on which the general statements are instantiated. -/

/-- Modelled from the spec: the recoverable failures of the store (the
errorator behind `tm_future` is declared in the absent
`node_extent_manager.h`): "address not found on read, out-of-space on
allocate, transaction conflict/abort". -/
inductive StoreError where
  | NotFound
  | OutOfSpace
  | TransactionAborted
  deriving DecidableEq, Repr

/-- An in-memory store: the extents with their reference counts, the root
address, the next free address and the end of the address space. -/
structure MemStore where
  extents : List (SeastoreNodeExtent × Nat)
  root : laddr_t
  next : laddr_t
  limit : laddr_t
  deriving DecidableEq, Repr

/-- Lowers by one the reference count of the extent at `addr`. -/
def MemStore.release (addr : laddr_t) :
    List (SeastoreNodeExtent × Nat) → List (SeastoreNodeExtent × Nat)
  | [] => []
  | (e, n) :: rest =>
    if e.laddr = addr then (e, n - 1) :: rest
    else (e, n) :: MemStore.release addr rest

/-- The in-memory store as a `TransactionManager`. -/
def MemStore.tm : TransactionManager MemStore StoreError where
  read_extent := fun s _ addr _ =>
    match s.extents.find? (fun p => p.1.laddr == addr) with
    | some p => (.ok p.1, s)
    | none => (.error .NotFound, s)
  alloc_extent := fun s _ hint len =>
    let addr := max hint s.next
    if addr + len ≤ s.limit then
      let e := SeastoreNodeExtent.ofPtr addr (List.replicate len 0)
      (.ok e, { s with extents := (e, 1) :: s.extents, next := addr + len })
    else (.error .OutOfSpace, s)
  dec_ref := fun s _ extent =>
    match s.extents.find? (fun p => p.1.laddr == extent.laddr) with
    | some p => (.ok (p.2 - 1), { s with extents := MemStore.release extent.laddr s.extents })
    | none => (.error .NotFound, s)
  read_onode_root := fun s _ => (.ok s.root, s)

/-- A store whose transaction has been aborted by a conflict: every call
fails with `TransactionAborted`. -/
def abortedTM : TransactionManager Unit StoreError where
  read_extent := fun s _ _ _ => (.error .TransactionAborted, s)
  alloc_extent := fun s _ _ _ => (.error .TransactionAborted, s)
  dec_ref := fun s _ _ => (.error .TransactionAborted, s)
  read_onode_root := fun s _ => (.error .TransactionAborted, s)

/-- A 4-byte extent at address 4096, referenced once. -/
def extentA : SeastoreNodeExtent := SeastoreNodeExtent.ofPtr 4096 [1, 2, 3, 4]

/-- A 2-byte extent at address 8192, referenced twice. -/
def extentB : SeastoreNodeExtent := SeastoreNodeExtent.ofPtr 8192 [5, 6]

/-- A world over the in-memory store holding `extentA` and `extentB`, with
root 4096 and an empty call log. -/
def memWorld : World MemStore :=
  { st := { extents := [(extentA, 1), (extentB, 2)], root := 4096,
            next := 12288, limit := 65536 },
    calls := [] }

/-- A world over the aborted store, with an empty call log. -/
def abortedWorld : World Unit := { st := (), calls := [] }

end crimson.os.seastore.onode

/-! ## Theorems -/

namespace crimson.os.seastore.onode

open SeastoreNodeExtentManager SeastoreNodeExtent

theorem assert_then_eq_ok_iff {ε α : Type} (c : Bool) (r : Outcome ε α) (a : α) :
    assert_then c r = .ok a ↔ c = true ∧ r = .ok a := by
  cases c <;> simp [assert_then]

/-- C1 (as stated, at a concrete input): over a store whose transaction has
been aborted, `read_extent(t, 4096, 4)` neither returns an extent with the
requested address and length, nor fails with `NotFound`, nor fails the
length/address assertion: it fails with the store's `TransactionAborted`. -/
theorem read_extent_other_failure :
    ¬ ((∃ e, (read_extent ⟨abortedTM, 0⟩ abortedWorld 7 4096 4).1 = .ok e
          ∧ e.get_laddr = 4096 ∧ e.get_length = 4)
       ∨ (read_extent ⟨abortedTM, 0⟩ abortedWorld 7 4096 4).1
          = .error StoreError.NotFound
       ∨ (read_extent ⟨abortedTM, 0⟩ abortedWorld 7 4096 4).1
          = .assert_failed) := by
  have h : (read_extent ⟨abortedTM, 0⟩ abortedWorld 7 4096 4).1
      = .error StoreError.TransactionAborted := rfl
  rw [h]
  simp

/-- C1 (amended): `read_extent(t, a, l)` either returns the store's extent,
whose reported address equals `a` and whose reported length equals `l`, or
fails; a failure is the error of the store's read, unchanged, or a failed
assertion, raised exactly when the store returned an extent whose address
differs from `a` or whose length differs from `l`.  No success carries a
mismatched extent. -/
theorem read_extent_fidelity {σ ε : Type} (m : SeastoreNodeExtentManager σ ε)
    (w : World σ) (t : Transaction) (a : laddr_t) (l : extent_len_t) :
    match (m.read_extent w t a l).1 with
    | .ok e => e.get_laddr = a ∧ e.get_length = l
        ∧ (m.tm.read_extent w.st t a l).1 = .ok e
    | .error err => (m.tm.read_extent w.st t a l).1 = .error err
    | .assert_failed => ∃ e, (m.tm.read_extent w.st t a l).1 = .ok e
        ∧ (e.get_laddr ≠ a ∨ e.get_length ≠ l) := by
  unfold read_extent World.call
  cases h : (m.tm.read_extent w.st t a l).1 with
  | error err => simp [Outcome.ofExcept, Outcome.safe_then]
  | ok e =>
    simp only [Outcome.ofExcept, Outcome.safe_then, assert_then]
    by_cases ha : e.get_laddr = a
    · by_cases hl : e.get_length = l
      · simp [ha, hl]
      · simp [ha, hl]
    · simp [ha]

/-- C2: `retire_extent` makes exactly one `dec_ref` call on the store, for the
given transaction and extent; it succeeds if and only if the store reports a
count of exactly 0 after the decrement; whenever the store reports a count
greater than 0 the outcome is a failed assertion. -/
theorem retire_extent_zero_refcount {σ ε : Type}
    (m : SeastoreNodeExtentManager σ ε) (w : World σ) (t : Transaction)
    (extent : SeastoreNodeExtent) :
    (m.retire_extent w t extent).2.calls = w.calls ++ [StoreCall.dec_ref t extent]
    ∧ (m.retire_extent w t extent).2.st = (m.tm.dec_ref w.st t extent).2
    ∧ ((m.retire_extent w t extent).1 = .ok ()
        ↔ (m.tm.dec_ref w.st t extent).1 = .ok 0)
    ∧ (∀ cnt, 0 < cnt → (m.tm.dec_ref w.st t extent).1 = .ok cnt →
        (m.retire_extent w t extent).1 = .assert_failed) := by
  refine ⟨rfl, rfl, ?_, ?_⟩
  · unfold retire_extent World.call
    cases h : (m.tm.dec_ref w.st t extent).1 with
    | error err => simp [Outcome.ofExcept, Outcome.safe_then]
    | ok cnt =>
      cases cnt with
      | zero => simp [Outcome.ofExcept, Outcome.safe_then, assert_then]
      | succ n => simp [Outcome.ofExcept, Outcome.safe_then, assert_then]
  · intro cnt hpos hcnt
    unfold retire_extent World.call
    rw [hcnt]
    cases cnt with
    | zero => exact absurd hpos (Nat.lt_irrefl 0)
    | succ n => simp [Outcome.ofExcept, Outcome.safe_then, assert_then]

/-- C2 at concrete inputs: retiring `extentA` (referenced once) succeeds after
one `dec_ref`; retiring `extentB` (referenced twice) fails its assertion. -/
theorem retire_extent_zero_refcount_witness :
    (retire_extent ⟨MemStore.tm, 0⟩ memWorld 7 extentA).1 = .ok ()
    ∧ (retire_extent ⟨MemStore.tm, 0⟩ memWorld 7 extentA).2.calls
        = [StoreCall.dec_ref 7 extentA]
    ∧ (retire_extent ⟨MemStore.tm, 0⟩ memWorld 7 extentB).1 = .assert_failed :=
  ⟨((retire_extent_zero_refcount ⟨MemStore.tm, 0⟩ memWorld 7 extentA).2.2.1).mpr rfl,
   (retire_extent_zero_refcount ⟨MemStore.tm, 0⟩ memWorld 7 extentA).1,
   (retire_extent_zero_refcount ⟨MemStore.tm, 0⟩ memWorld 7 extentB).2.2.2 1
      (by decide) rfl⟩

/-- C3: whenever `alloc_extent(t, len)` succeeds, the returned extent has
length exactly `len` and is the extent the store returned, unchanged (so its
address is the one the store chose). -/
theorem alloc_extent_length {σ ε : Type} (m : SeastoreNodeExtentManager σ ε)
    (w : World σ) (t : Transaction) (len : extent_len_t)
    (e : SeastoreNodeExtent) (h : (m.alloc_extent w t len).1 = .ok e) :
    e.get_length = len
    ∧ (m.tm.alloc_extent w.st t m.addr_min len).1 = .ok e := by
  unfold alloc_extent World.call at h
  cases hs : (m.tm.alloc_extent w.st t m.addr_min len).1 with
  | error err => simp [hs, Outcome.ofExcept, Outcome.safe_then] at h
  | ok e1 =>
    simp only [hs, Outcome.ofExcept, Outcome.safe_then] at h
    rw [assert_then_eq_ok_iff] at h
    obtain ⟨hl, he⟩ := h
    have he1 : e1 = e := by simpa using he
    subst he1
    exact ⟨by simpa using hl, rfl⟩

/-- C3 at a concrete input: allocating 3 bytes over the in-memory store with
`addr_min = 16384` yields the 3-byte extent the store placed at 16384. -/
theorem alloc_extent_length_witness :
    (alloc_extent ⟨MemStore.tm, 16384⟩ memWorld 7 3).1
        = .ok (SeastoreNodeExtent.ofPtr 16384 [0, 0, 0])
    ∧ (SeastoreNodeExtent.ofPtr 16384 [0, 0, 0]).get_length = 3
    ∧ (MemStore.tm.alloc_extent memWorld.st 7 16384 3).1
        = .ok (SeastoreNodeExtent.ofPtr 16384 [0, 0, 0]) :=
  ⟨rfl, alloc_extent_length ⟨MemStore.tm, 16384⟩ memWorld 7 3
      (SeastoreNodeExtent.ofPtr 16384 [0, 0, 0]) rfl⟩

/-- C4: for each of `read_extent`, `alloc_extent`, `retire_extent` and
`get_super`: if the underlying store call fails with error `e`, the manager
operation fails with that same `e`, the call log has grown by exactly that
one call, and the store is left in the state that call produced. -/
theorem store_error_propagates {σ ε : Type} (m : SeastoreNodeExtentManager σ ε)
    (w : World σ) (t : Transaction) (e : ε) :
    (∀ addr len, (m.tm.read_extent w.st t addr len).1 = .error e →
        m.read_extent w t addr len
          = (.error e, ⟨(m.tm.read_extent w.st t addr len).2,
                        w.calls ++ [StoreCall.read_extent t addr len]⟩))
    ∧ (∀ len, (m.tm.alloc_extent w.st t m.addr_min len).1 = .error e →
        m.alloc_extent w t len
          = (.error e, ⟨(m.tm.alloc_extent w.st t m.addr_min len).2,
                        w.calls ++ [StoreCall.alloc_extent t m.addr_min len]⟩))
    ∧ (∀ extent, (m.tm.dec_ref w.st t extent).1 = .error e →
        m.retire_extent w t extent
          = (.error e, ⟨(m.tm.dec_ref w.st t extent).2,
                        w.calls ++ [StoreCall.dec_ref t extent]⟩))
    ∧ (∀ tracker, (m.tm.read_onode_root w.st t).1 = .error e →
        m.get_super w t tracker
          = (.error e, ⟨(m.tm.read_onode_root w.st t).2,
                        w.calls ++ [StoreCall.read_onode_root t]⟩)) := by
  refine ⟨?_, ?_, ?_, ?_⟩
  · intro addr len h
    simp [read_extent, World.call, h, Outcome.ofExcept, Outcome.safe_then]
  · intro len h
    simp [alloc_extent, World.call, h, Outcome.ofExcept, Outcome.safe_then]
  · intro extent h
    simp [retire_extent, World.call, h, Outcome.ofExcept, Outcome.safe_then]
  · intro tracker h
    simp [get_super, World.call, h, Outcome.ofExcept, Outcome.safe_then]

/-- C4 at concrete inputs: over the aborted store each of the four operations
fails with `TransactionAborted` after a single logged call; over the in-memory
store a read of an unallocated address fails with the store's `NotFound`. -/
theorem store_error_propagates_witness :
    read_extent ⟨abortedTM, 0⟩ abortedWorld 7 4096 4
        = (.error .TransactionAborted, ⟨(), [StoreCall.read_extent 7 4096 4]⟩)
    ∧ alloc_extent ⟨abortedTM, 0⟩ abortedWorld 7 4
        = (.error .TransactionAborted, ⟨(), [StoreCall.alloc_extent 7 0 4]⟩)
    ∧ retire_extent ⟨abortedTM, 0⟩ abortedWorld 7 extentA
        = (.error .TransactionAborted, ⟨(), [StoreCall.dec_ref 7 extentA]⟩)
    ∧ get_super ⟨abortedTM, 0⟩ abortedWorld 7 3
        = (.error .TransactionAborted, ⟨(), [StoreCall.read_onode_root 7]⟩)
    ∧ (read_extent ⟨MemStore.tm, 0⟩ memWorld 7 5000 4).1 = .error .NotFound :=
  ⟨(store_error_propagates ⟨abortedTM, 0⟩ abortedWorld 7 .TransactionAborted).1
      4096 4 rfl,
   (store_error_propagates ⟨abortedTM, 0⟩ abortedWorld 7 .TransactionAborted).2.1
      4 rfl,
   (store_error_propagates ⟨abortedTM, 0⟩ abortedWorld 7 .TransactionAborted).2.2.1
      extentA rfl,
   (store_error_propagates ⟨abortedTM, 0⟩ abortedWorld 7 .TransactionAborted).2.2.2
      3 rfl,
   congrArg Prod.fst
    ((store_error_propagates ⟨MemStore.tm, 0⟩ memWorld 7 .NotFound).1 5000 4 rfl)⟩

/-- C5: when the store's root-pointer lookup returns address `r`,
`get_super(t, tracker)` returns a Super bound to `t` and `tracker` whose
`get_root_laddr()` is `r`.  `get_root_laddr` is a function of the Super alone
(a `const` method), so it returns the same address at every call. -/
theorem get_super_root_laddr {σ ε : Type} (m : SeastoreNodeExtentManager σ ε)
    (w : World σ) (t : Transaction) (tracker : RootNodeTracker) (r : laddr_t)
    (h : (m.tm.read_onode_root w.st t).1 = .ok r) :
    ∃ s, (m.get_super w t tracker).1 = .ok s
      ∧ s.get_root_laddr = r ∧ s.t = t ∧ s.tracker = tracker
      ∧ (m.get_super w t tracker).2.calls
          = w.calls ++ [StoreCall.read_onode_root t] :=
  ⟨{ t := t, tracker := tracker, root_addr := r, tm := m.tm },
   by simp [get_super, World.call, h, Outcome.ofExcept, Outcome.safe_then],
   rfl, rfl, rfl, rfl⟩

/-- C5 at a concrete input: over the in-memory store with root 4096,
`get_super` returns a Super whose root address is 4096. -/
theorem get_super_root_laddr_witness :
    ∃ s, (get_super ⟨MemStore.tm, 0⟩ memWorld 7 3).1 = .ok s
      ∧ s.get_root_laddr = 4096 ∧ s.t = 7 ∧ s.tracker = 3
      ∧ (get_super ⟨MemStore.tm, 0⟩ memWorld 7 3).2.calls
          = memWorld.calls ++ [StoreCall.read_onode_root 7] :=
  get_super_root_laddr ⟨MemStore.tm, 0⟩ memWorld 7 3 4096 rfl

/-- C7: a manager constructed with any store and any minimum address reports
that it is read-isolated. -/
theorem is_read_isolated_true {σ ε : Type} (tm : TransactionManager σ ε)
    (min : laddr_t) :
    (SeastoreNodeExtentManager.mk tm min).is_read_isolated = true :=
  rfl

/-- C8: for every extent `e`, with or without a recorder,
`duplicate_for_write(e)` returns an extent whose content equals that of `e`
(same bytes, same length), whose recorder is null and whose type tag is that
of `e`; `e` itself, content and recorder included, is unchanged. -/
theorem duplicate_for_write_copy (e : SeastoreNodeExtent) :
    (e.duplicate_for_write).2.ptr = e.ptr
    ∧ (e.duplicate_for_write).2.get_length = e.get_length
    ∧ (e.duplicate_for_write).2.get_recorder = none
    ∧ (e.duplicate_for_write).2.get_type = e.get_type
    ∧ (e.duplicate_for_write).1 = e :=
  ⟨rfl, rfl, rfl, rfl, rfl⟩

/-- C9: for an extent with recorder `r` attached, `get_delta` returns exactly
the bytes of `r.get_delta`; for an extent without a recorder (a clean extent
as constructed from a buffer, or a fresh result of `duplicate_for_write`)
`get_delta` fails its assertion and returns no delta at all. -/
theorem get_delta_recorder (e : SeastoreNodeExtent) :
    (∀ r, e.get_recorder = some r → e.get_delta = .ok r.get_delta)
    ∧ (e.get_recorder = none →
        e.get_delta = .assert_failed ∧ ∀ bl, e.get_delta ≠ .ok bl)
    ∧ (e.duplicate_for_write).2.get_delta = .assert_failed
    ∧ (∀ a p, (SeastoreNodeExtent.ofPtr a p).get_delta = .assert_failed) := by
  refine ⟨?_, ?_, rfl, fun _ _ => rfl⟩
  · intro r h
    simp only [SeastoreNodeExtent.get_recorder] at h
    simp [SeastoreNodeExtent.get_delta, h]
  · intro h
    simp only [SeastoreNodeExtent.get_recorder] at h
    simp [SeastoreNodeExtent.get_delta, h]

/-- C9 at concrete inputs: an extent whose recorder holds the record
"bytes 9, 9 at offset 1" returns that recorder's serialised delta; the clean
`extentA` fails the assertion. -/
theorem get_delta_recorder_witness :
    (extentA.mutate ⟨.ONODE_BLOCK_STAGED, [⟨1, [9, 9]⟩]⟩).get_delta
        = .ok [1, 0, 0, 0, 2, 0, 0, 0, 9, 9]
    ∧ extentA.get_delta = .assert_failed :=
  ⟨(get_delta_recorder (extentA.mutate ⟨.ONODE_BLOCK_STAGED, [⟨1, [9, 9]⟩]⟩)).1
      ⟨.ONODE_BLOCK_STAGED, [⟨1, [9, 9]⟩]⟩ rfl,
   ((get_delta_recorder extentA).2.1 rfl).1⟩

/-- C10: for a manager constructed with minimum address `min`, in any world,
`alloc_extent(t, len)` issues exactly one request to the store, an allocation
carrying the hint `min` and the length `len`, and the store is left in the
state that request produced. -/
theorem alloc_extent_request {σ ε : Type} (tm : TransactionManager σ ε)
    (min : laddr_t) (w : World σ) (t : Transaction) (len : extent_len_t) :
    (SeastoreNodeExtentManager.mk tm min).addr_min = min
    ∧ ((SeastoreNodeExtentManager.mk tm min).alloc_extent w t len).2.calls
        = w.calls ++ [StoreCall.alloc_extent t min len]
    ∧ ((SeastoreNodeExtentManager.mk tm min).alloc_extent w t len).2.st
        = (tm.alloc_extent w.st t min len).2 :=
  ⟨rfl, rfl, rfl⟩

/-! ### Delta journaling -/

theorem decode_u32_encode (n : Nat) (h : n < 4294967296) :
    decode_u32 (Fin.ofNat (n % 256)) (Fin.ofNat (n / 256 % 256))
      (Fin.ofNat (n / 65536 % 256)) (Fin.ofNat (n / 16777216 % 256)) = n := by
  simp only [decode_u32, Fin.ofNat, Nat.mod_mod]
  omega

theorem decode_delta_encode (rs : List DeltaRecord) :
    ∀ fuel, rs.length ≤ fuel →
      (∀ r ∈ rs, r.offset < 4294967296 ∧ r.data.length < 4294967296) →
      decode_delta fuel (rs.map DeltaRecord.encode).flatten = some rs := by
  induction rs with
  | nil => intro fuel _ _; cases fuel <;> rfl
  | cons r rs ih =>
    intro fuel hfuel hb
    cases fuel with
    | zero => simp at hfuel
    | succ f =>
      have hr := hb r (List.mem_cons_self _ _)
      have hrest := ih f (by simpa using hfuel)
        (fun x hx => hb x (List.mem_cons_of_mem _ hx))
      simp only [List.map_cons, List.flatten_cons, DeltaRecord.encode, encode_u32,
        List.cons_append, List.nil_append, List.append_assoc, decode_delta]
      rw [decode_u32_encode _ hr.1, decode_u32_encode _ hr.2]
      simp [hrest]

theorem encode_flatten_length (rs : List DeltaRecord) :
    rs.length ≤ ((rs.map DeltaRecord.encode).flatten).length := by
  induction rs with
  | nil => simp
  | cons r rs ih =>
    have h8 : 8 ≤ (DeltaRecord.encode r).length := by
      simp [DeltaRecord.encode, encode_u32]
    simp only [List.map_cons, List.flatten_cons, List.length_append, List.length_cons]
    omega

theorem write_bytes_length (buf : List Byte) (off : Nat) (data buf1 : List Byte)
    (h : write_bytes buf off data = some buf1) :
    buf1.length = buf.length ∧ off + data.length ≤ buf.length := by
  unfold write_bytes at h
  split at h
  · rename_i hle
    simp only [Option.some.injEq] at h
    subst h
    simp
    omega
  · simp at h

theorem edits_replay (rs : List DeltaRecord) :
    ∀ (e e2 : SeastoreNodeExtent) (rec : DeltaRecorder),
      e.recorder = some rec → edits e rs = some e2 →
      e2.recorder = some { rec with records := rec.records ++ rs }
      ∧ replay e.ptr rs = some e2.ptr
      ∧ ∀ r ∈ rs, r.offset + r.data.length ≤ e.ptr.length := by
  induction rs with
  | nil =>
    intro e e2 rec hrec h
    simp only [edits, Option.some.injEq] at h
    subst h
    simp [hrec, replay]
  | cons r rs ih =>
    intro e e2 rec hrec h
    simp only [edits] at h
    cases he : edit e r with
    | none => simp [he] at h
    | some e1 =>
      simp only [he] at h
      unfold edit at he
      rw [hrec] at he
      cases hw : write_bytes e.ptr r.offset r.data with
      | none => simp [hw] at he
      | some buf =>
        simp only [hw, Option.some.injEq] at he
        subst he
        obtain ⟨h1, h2, h3⟩ := ih _ e2 _ rfl h
        obtain ⟨hl, hle⟩ := write_bytes_length _ _ _ _ hw
        refine ⟨by simpa using h1, by simp [replay, hw, h2], ?_⟩
        intro x hx
        rcases List.mem_cons.mp hx with rfl | hx
        · exact hle
        · have := h3 x hx
          simpa [hl] using this

/-- C6: for any sequence of in-place edits applied to the writable duplicate
of an extent `e0` (of a length that fits `extent_len_t`, 32 bits) obtained by
`mutate` with a fresh recorder, `get_delta` on the edited extent returns a
byte sequence, and `apply_delta` of those bytes on the pre-mutation image `e0`
succeeds with content byte-identical to the edited extent. -/
theorem delta_round_trip (e0 e2 : SeastoreNodeExtent) (rs : List DeltaRecord)
    (hlen : e0.get_length < 4294967296)
    (h : edits (e0.mutate ⟨e0.get_type, []⟩) rs = some e2) :
    ∃ bl e3, e2.get_delta = .ok bl ∧ e0.apply_delta bl = some e3
      ∧ e3.ptr = e2.ptr ∧ e3.get_laddr = e0.get_laddr := by
  obtain ⟨h1, h2, h3⟩ := edits_replay rs (e0.mutate ⟨e0.get_type, []⟩) e2
    ⟨e0.get_type, []⟩ rfl h
  have hptr : (e0.mutate ⟨e0.get_type, []⟩).ptr = e0.ptr := rfl
  rw [hptr] at h2 h3
  have hb : ∀ r ∈ rs, r.offset < 4294967296 ∧ r.data.length < 4294967296 := by
    intro r hr
    have := h3 r hr
    have hlen1 : e0.ptr.length < 4294967296 := hlen
    omega
  refine ⟨(rs.map DeltaRecord.encode).flatten, { e0 with ptr := e2.ptr }, ?_, ?_, rfl, rfl⟩
  · simp [get_delta, h1, DeltaRecorder.get_delta]
  · simp only [apply_delta]
    rw [decode_delta_encode rs _ (encode_flatten_length rs) hb]
    simp [h2]

/-- C6 at a concrete input: the 4-byte `extentA` is edited twice (bytes 9, 9
at offset 1, then byte 7 at offset 0); replaying the serialised delta on
`extentA` gives the edited content 7, 9, 9, 4. -/
theorem delta_round_trip_witness :
    edits (extentA.mutate ⟨extentA.get_type, []⟩) [⟨1, [9, 9]⟩, ⟨0, [7]⟩]
        = some ⟨⟨4096, [7, 9, 9, 4]⟩, some ⟨.ONODE_BLOCK_STAGED, [⟨1, [9, 9]⟩, ⟨0, [7]⟩]⟩⟩
    ∧ ∃ bl e3,
        (⟨⟨4096, [7, 9, 9, 4]⟩,
          some ⟨.ONODE_BLOCK_STAGED, [⟨1, [9, 9]⟩, ⟨0, [7]⟩]⟩⟩ : SeastoreNodeExtent).get_delta
          = .ok bl
        ∧ extentA.apply_delta bl = some e3
        ∧ e3.ptr = [7, 9, 9, 4] ∧ e3.get_laddr = extentA.get_laddr :=
  ⟨rfl, delta_round_trip extentA _ [⟨1, [9, 9]⟩, ⟨0, [7]⟩] (by decide) rfl⟩

end crimson.os.seastore.onode
